import Mathlib

set_option maxRecDepth 100000

/-!
Verification of the LRU cache and proxy pipeline of the proxy-server
repository, shallowly embedded from `src/backend/src/cache/LRUCache.ts`
and the `ProxyServer` source.

Modelling conventions:
* JS objects shared between the `cacheMap` hash map and the doubly-linked
  list are modelled by integer node ids: `nodes` is the allocation table
  (id to element), `list` is the linked list as a head-first list of ids,
  and `cacheMap` is the `Map` as an insertion-ordered association list
  from url to id.  Mutating a field of a shared object becomes updating
  the allocation table at that id, which every alias observes.
* `Buffer` payloads are lists of bytes; `Buffer.byteLength(url)` is the
  UTF-8 byte size of the url string.
* `Date.now()` is an explicit `time` argument to each operation.
* `cacheSize` is an `Int` because the code can drive it negative.
* The `while (cacheSize + elementSize > maxSize) removeLRU()` loop in
  `add` does not terminate when the list is empty while the condition
  holds (`removeLRU` is then a no-op); `evictLoop` returns `none` for
  exactly that divergence, so `add` returns `Option (Bool × CacheState)`.
-/

/-- A cached element: `data`, `length`, `url`, `lruTimeTrack` from the
`CacheElement` record (the `prev`/`next` pointers live in the list of ids,
`timestamp` is presentational and omitted). -/
structure Elem where
  data : List Nat
  length : Nat
  url : String
  lruTimeTrack : Nat
deriving DecidableEq

/-- The cache capacity configuration: `CONFIG.CACHE_SIZE` and
`CONFIG.MAX_ELEMENT_SIZE` (defaults 200 MiB and 10 MiB). -/
structure Config where
  maxSize : Nat
  maxElementSize : Nat
deriving DecidableEq

/-- The mutable state of one `LRUCache` instance. -/
structure CacheState where
  list : List Nat
  nodes : List (Nat × Elem)
  cacheMap : List (String × Nat)
  cacheSize : Int
  hits : Nat
  misses : Nat
  nextId : Nat
deriving DecidableEq

/-- `Buffer.byteLength(s)`: the UTF-8 byte size of a string. -/
def byteLength (s : String) : Nat := s.utf8ByteSize

/-- Placeholder element; never reached from states built by the
operations (every id stored in `list` or `cacheMap` has a node). -/
def dummyElem : Elem := ⟨[], 0, "", 0⟩

/-- `Map.get`: first (unique) binding of a key in the association list. -/
def mapGet (m : List (String × Nat)) (k : String) : Option Nat :=
  match m with
  | [] => none
  | (k', v) :: rest => if k' = k then some v else mapGet rest k

/-- `Map.delete`: drop the (unique) binding of a key. -/
def mapDelete (m : List (String × Nat)) (k : String) : List (String × Nat) :=
  match m with
  | [] => []
  | (k', v) :: rest => if k' = k then rest else (k', v) :: mapDelete rest k

/-- `Map.set`: replace an existing binding in place, else append. -/
def mapSet (m : List (String × Nat)) (k : String) (v : Nat) : List (String × Nat) :=
  match m with
  | [] => [(k, v)]
  | (k', v') :: rest => if k' = k then (k, v) :: rest else (k', v') :: mapSet rest k v

/-- Read the allocation table at a node id. -/
def getNode (nodes : List (Nat × Elem)) (id : Nat) : Option Elem :=
  match nodes with
  | [] => none
  | (i, e) :: rest => if i = id then some e else getNode rest id

/-- Overwrite the element stored at a node id (a JS field mutation seen
by every alias of the object). -/
def setNode (nodes : List (Nat × Elem)) (id : Nat) (e : Elem) : List (Nat × Elem) :=
  nodes.map (fun p => if p.1 = id then (id, e) else p)

/-- The accounted size of an element: `length + byteLength url`. -/
def elemSize (e : Elem) : Nat := e.length + byteLength e.url

/-- The accounted size of the node with the given id, as an `Int`. -/
def nodeSize (s : CacheState) (id : Nat) : Int :=
  (elemSize ((getNode s.nodes id).getD dummyElem) : Int)

/-- The fresh cache of the `LRUCache` constructor. -/
def emptyCache : CacheState :=
  { list := [], nodes := [], cacheMap := [], cacheSize := 0,
    hits := 0, misses := 0, nextId := 0 }

/-- `moveToFront`: unlink the (present) node and relink it as head.  On a
well-formed list containing `id` this is exactly the pointer surgery of
the source; when `id` is already the head both sides are the identity. -/
def moveToFront (s : CacheState) (id : Nat) : CacheState :=
  { s with list := id :: s.list.erase id }

/-- `find(url)`: on a map hit bump `hits`, stamp `lruTimeTrack` with the
current time, splice the node to the front, and return the element; on a
miss bump `misses` and return nothing. -/
def find (t : Nat) (url : String) (s : CacheState) : Option Elem × CacheState :=
  match mapGet s.cacheMap url with
  | some id =>
    let e := (getNode s.nodes id).getD dummyElem
    let e' := { e with lruTimeTrack := t }
    let s' := { s with hits := s.hits + 1, nodes := setNode s.nodes id e' }
    (some e', moveToFront s' id)
  | none => (none, { s with misses := s.misses + 1 })

/-- `removeLRU`: if the list is nonempty, unlink the tail node, delete
the map binding of the tail's url (whatever node that binding holds), and
subtract the tail's accounted size. -/
def removeLRU (s : CacheState) : CacheState :=
  match s.list.getLast? with
  | none => s
  | some tid =>
    let te := (getNode s.nodes tid).getD dummyElem
    { s with
      list := s.list.dropLast,
      cacheMap := mapDelete s.cacheMap te.url,
      cacheSize := s.cacheSize - ((te.length : Int) + (byteLength te.url : Int)) }

/-- The body of the `while (cacheSize + elementSize > maxSize)
removeLRU()` loop of `add`, structurally recursive on a fuel that the
caller sets to the list length (each iteration unlinks exactly one node,
so the fuel never runs out before the list does).  `none` models the
divergence that occurs in the source when the condition holds on an
empty list, where `removeLRU` is a no-op. -/
def evictLoopAux (cfg : Config) (elementSize : Nat) :
    Nat → CacheState → Option CacheState
  | 0, s =>
    if s.cacheSize + (elementSize : Int) > (cfg.maxSize : Int) then none else some s
  | fuel + 1, s =>
    if s.cacheSize + (elementSize : Int) > (cfg.maxSize : Int) then
      if s.list = [] then none
      else evictLoopAux cfg elementSize fuel (removeLRU s)
    else some s

/-- The eviction loop of `add`, entered with fuel equal to the current
list length. -/
def evictLoop (cfg : Config) (elementSize : Nat) (s : CacheState) : Option CacheState :=
  evictLoopAux cfg elementSize s.list.length s

/-- The "Remove existing entry if present" step of `add`: when the url
is bound in the map, subtract the bound element's accounted size and
delete the binding.  The source deletes only the map binding — the node
itself stays linked in the list. -/
def dedupState (s : CacheState) (url : String) : CacheState :=
  match mapGet s.cacheMap url with
  | some id =>
    let ex := (getNode s.nodes id).getD dummyElem
    { s with
      cacheSize := s.cacheSize - ((ex.length : Int) + (byteLength ex.url : Int)),
      cacheMap := mapDelete s.cacheMap url }
  | none => s

/-- `add(data, url)`: reject oversize elements; deduct and unbind an
existing binding of the url (the node itself stays linked in the list —
the source never unlinks it); evict while over capacity; then allocate
the new element at the front of the list and in the map. -/
def add (cfg : Config) (t : Nat) (data : List Nat) (url : String) (s : CacheState) :
    Option (Bool × CacheState) :=
  let elementSize := data.length + byteLength url
  if elementSize > cfg.maxElementSize then some (false, s)
  else
    match evictLoop cfg elementSize (dedupState s url) with
    | none => none
    | some s2 =>
      let e : Elem := { data := data, length := data.length, url := url, lruTimeTrack := t }
      let id := s2.nextId
      some (true,
        { s2 with
          nodes := s2.nodes ++ [(id, e)],
          cacheMap := mapSet s2.cacheMap url id,
          cacheSize := s2.cacheSize + (elementSize : Int),
          list := id :: s2.list,
          nextId := id + 1 })

/-- `clear()`: drop the list and the map and reset the size and the
counters.  (The allocation table keeps the unreachable old objects.) -/
def clear (s : CacheState) : CacheState :=
  { s with list := [], cacheMap := [], cacheSize := 0, hits := 0, misses := 0 }

/-- The statistics snapshot assembled by `logStats` before formatting:
current byte count, item count, hit and miss counters, and the hit rate
as the percentage `hits / (hits + misses) * 100` (0 when no lookups);
JS number arithmetic is modelled by exact rationals and the two-decimal
`toFixed` display rounding is not modelled. -/
structure Stats where
  currentBytes : Int
  itemCount : Nat
  hits : Nat
  misses : Nat
  hitRate : ℚ
deriving DecidableEq

/-- `logStats`: the observer snapshot of the cache counters. -/
def logStats (s : CacheState) : Stats :=
  { currentBytes := s.cacheSize,
    itemCount := s.cacheMap.length,
    hits := s.hits,
    misses := s.misses,
    hitRate :=
      if s.hits + s.misses > 0
      then (s.hits : ℚ) / ((s.hits : ℚ) + (s.misses : ℚ)) * 100
      else 0 }

/-- The urls of the nodes linked in the list, head first. -/
def listUrls (s : CacheState) : List String :=
  s.list.map (fun id => ((getNode s.nodes id).getD dummyElem).url)

/-- Sum of accounted sizes over the nodes linked in the list. -/
def listSumBytes (s : CacheState) : Int :=
  (s.list.map (fun id => nodeSize s id)).sum

/-- Sum of accounted sizes over the entries reachable through the map. -/
def mapSumBytes (s : CacheState) : Int :=
  (s.cacheMap.map (fun p => nodeSize s p.2)).sum

/-- `add` followed by projection to the resulting state. -/
def addStep (cfg : Config) (t : Nat) (data : List Nat) (url : String)
    (s : CacheState) : Option CacheState :=
  (add cfg t data url s).map (·.2)

/-- The membership and accounting invariants of the specification that
the termination argument for the eviction loop relies on: `currentBytes`
is the sum of the accounted sizes of the nodes linked in the list, and
every map binding points at a linked node. -/
def goodState (s : CacheState) : Prop :=
  s.cacheSize = listSumBytes s ∧ ∀ p ∈ s.cacheMap, p.2 ∈ s.list

/-- Is the first list a prefix of the second?  (Plain recursion so that
the kernel can evaluate it on literals.) -/
def listStarts : List Char → List Char → Bool
  | [], _ => true
  | _ :: _, [] => false
  | p :: ps, c :: cs => p == c && listStarts ps cs

/-- Does the string `s` start with the string `p`? -/
def strStarts (s p : String) : Bool := listStarts p.data s.data

/-- ASCII lowercasing of a string, modelling the case folding that both
the regex `i` flag and the WHATWG host serializer perform on the ASCII
urls the claims exercise. -/
def lowerStr (s : String) : String := ⟨s.data.map Char.toLower⟩

/-- The string without its first `n` characters. -/
def strDrop (s : String) (n : Nat) : String := ⟨s.data.drop n⟩

/-- `targetUrl.match(/^https?:\/\//i)` of `handleRequest`: does the
string start, case-insensitively, with an http or https scheme? -/
def schemeMatch (s : String) : Bool :=
  let l := lowerStr s
  strStarts l "http://" || strStarts l "https://"

/-- The `formattedUrl` computation of `handleRequest`: prepend
`http://` when the target url lacks an http(s) scheme. -/
def formatTargetUrl (targetUrl : String) : String :=
  if schemeMatch targetUrl then targetUrl else "http://" ++ targetUrl

/-- Models the WHATWG `new URL(u).href` used by `makeProxyRequest` for
the store key, on the fragment of inputs the claims exercise: absolute
http(s) urls without userinfo, port, query, fragment, or characters
needing percent-encoding.  The scheme and host are lowercased and an
empty path serializes as `/`; other strings are returned unchanged. -/
def urlHref (u : String) : String :=
  let l := lowerStr u
  if strStarts l "http://" then
    let rest := strDrop u 7
    let host : String := ⟨rest.data.takeWhile (fun c => c ≠ '/')⟩
    let path : String := ⟨rest.data.dropWhile (fun c => c ≠ '/')⟩
    "http://" ++ lowerStr host ++ (if path.data.isEmpty then "/" else path)
  else if strStarts l "https://" then
    let rest := strDrop u 8
    let host : String := ⟨rest.data.takeWhile (fun c => c ≠ '/')⟩
    let path : String := ⟨rest.data.dropWhile (fun c => c ≠ '/')⟩
    "https://" ++ lowerStr host ++ (if path.data.isEmpty then "/" else path)
  else u

/-- The cache-relevant effect of one `GET /proxy?targetUrl=...` request
(`handleRequest` with `makeProxyRequest`): look the formatted url up in
the cache; on a hit serve from the cache; on a miss fetch `originBody`
from the origin and add it under `new URL(formattedUrl).href`.  The
first component records whether the request was served from the cache;
`none` propagates a diverging `add`. -/
def proxyOnce (cfg : Config) (t : Nat) (targetUrl : String) (originBody : List Nat)
    (s : CacheState) : Bool × Option CacheState :=
  let f := formatTargetUrl targetUrl
  match find t f s with
  | (some _, s') => (true, some s')
  | (none, s') =>
    match add cfg t originBody (urlHref f) s' with
    | none => (false, none)
    | some (_, s'') => (false, some s'')

/-- A 10-byte cache that admits 10-byte elements. -/
def cfg10 : Config := ⟨10, 10⟩

/-- A 100-byte cache that admits 100-byte elements. -/
def cfg100 : Config := ⟨100, 100⟩

/-- The `maxBytes = 300`, `maxEntryBytes = 300` configuration of the
cascading-eviction scenario. -/
def cfg300 : Config := ⟨300, 300⟩

/-- Double insertion under one key: `add(d, "k")` then `add(d', "k")`
on a fresh cache. -/
def doubleAddRun : Option CacheState :=
  (addStep cfg100 0 [0, 1, 2] "k" emptyCache).bind (addStep cfg100 1 [3, 4, 5, 6] "k")

/-- Double insertion under `"k"` followed by an insertion under `"j"`
that triggers eviction of the stale first `"k"` node: sizes 4, 6 and 8
in a 10-byte cache. -/
def staleEvictRun : Option CacheState :=
  ((addStep cfg10 0 [1, 2, 3] "k" emptyCache).bind
    (addStep cfg10 1 [1, 2, 3, 4, 5] "k")).bind
    (addStep cfg10 2 [1, 2, 3, 4, 5, 6, 7] "j")

/-- The cascading-eviction scenario of the specification: three
100-byte payloads under the 1-byte keys `"a"`, `"b"`, `"c"`, then
`find("a")`, then a 140-byte payload under `"d"`, with
`maxBytes = maxEntryBytes = 300`. -/
def cascadeRun : Option CacheState :=
  ((((addStep cfg300 0 (List.replicate 100 7) "a" emptyCache).bind
      (addStep cfg300 1 (List.replicate 100 7) "b")).bind
      (addStep cfg300 2 (List.replicate 100 7) "c")).map
      (fun s => (find 3 "a" s).2)).bind
      (addStep cfg300 4 (List.replicate 140 7) "d")

/-- A run producing one hit and one miss: add under `"k"`, a hitting
`find("k")`, a missing `find("j")`. -/
def oneHitOneMissRun : Option CacheState :=
  ((addStep cfg100 0 [1, 2] "k" emptyCache).map
    (fun s => (find 1 "k" s).2)).map
    (fun s => (find 2 "j" s).2)

/-- The state holding the single 3-byte entry `[1, 2]` under `"k"`,
used to instantiate the hypothesis-bearing theorems. -/
def oneEntryState : CacheState :=
  ((add cfg100 0 [1, 2] "k" emptyCache).getD (false, emptyCache)).2

/-- Dropping the last element of a list drops its contribution from a
mapped sum. -/
theorem sum_map_dropLast (l : List Nat) (f : Nat → Int) (h : l ≠ []) :
    (l.dropLast.map f).sum = (l.map f).sum - f (l.getLast h) := by
  rcases List.eq_nil_or_concat' l with rfl | ⟨L, b, rfl⟩
  · exact absurd rfl h
  · simp [List.getLast_append_singleton]

/-- `removeLRU` on a nonempty list subtracts the tail's accounted size
from both the byte counter and the linked-list byte sum, and removes
exactly the tail node. -/
theorem removeLRU_unlink (s : CacheState) (h : s.list ≠ []) :
    (removeLRU s).cacheSize = s.cacheSize - nodeSize s (s.list.getLast h) ∧
    listSumBytes (removeLRU s) = listSumBytes s - nodeSize s (s.list.getLast h) ∧
    (removeLRU s).list = s.list.dropLast := by
  have hg : s.list.getLast? = some (s.list.getLast h) :=
    List.getLast?_eq_getLast_of_ne_nil h
  unfold removeLRU
  rw [hg]
  refine ⟨?_, ?_, rfl⟩
  · simp [nodeSize, elemSize]
  · simp only [listSumBytes, nodeSize]
    exact sum_map_dropLast s.list _ h

/-- The eviction loop returns a state (rather than diverging) whenever
the incoming element fits in an empty cache and the byte counter is at
most the sum of the linked nodes' sizes: the loop only ever stops on an
empty list after the counter has dropped to at most zero, where the
loop condition fails. -/
theorem evictLoopAux_isSome (cfg : Config) (es : Nat)
    (hes : (es : Int) ≤ (cfg.maxSize : Int)) :
    ∀ fuel s, s.list.length ≤ fuel → s.cacheSize ≤ listSumBytes s →
      (evictLoopAux cfg es fuel s).isSome := by
  intro fuel
  induction fuel with
  | zero =>
    intro s hlen hle
    have hnil : s.list = [] := List.length_eq_zero.mp (Nat.le_zero.mp hlen)
    have hz : listSumBytes s = 0 := by simp [listSumBytes, hnil]
    have : ¬ (s.cacheSize + (es : Int) > (cfg.maxSize : Int)) := by
      rw [hz] at hle; omega
    simp [evictLoopAux, this]
  | succ n ih =>
    intro s hlen hle
    by_cases hc : s.cacheSize + (es : Int) > (cfg.maxSize : Int)
    · by_cases hnil : s.list = []
      · exfalso
        have hz : listSumBytes s = 0 := by simp [listSumBytes, hnil]
        rw [hz] at hle
        omega
      · have heff := removeLRU_unlink s hnil
        have hlen' : (removeLRU s).list.length ≤ n := by
          rw [heff.2.2]
          have := List.length_dropLast s.list
          omega
        have hle' : (removeLRU s).cacheSize ≤ listSumBytes (removeLRU s) := by
          rw [heff.1, heff.2.1]
          omega
        simpa [evictLoopAux, hc, hnil] using ih (removeLRU s) hlen' hle'
    · simp [evictLoopAux, hc]

/-- Claim C1: after `add(d, "k"); add(d', "k")` the linked list holds
two nodes carrying url `"k"` while the index holds a single binding:
the second `add` removes the first entry from the map but never unlinks
it from the list, so map membership and list membership disagree.  This
evaluates the code on the double-insert input the claim names. -/
theorem c1_double_add_stale_node :
    doubleAddRun.map (fun s => (listUrls s, s.cacheMap.map (·.1))) =
      some (["k", "k"], ["k"]) := by decide

/-- Claim C2: after `add(3 bytes, "k"); add(5 bytes, "k"); add(7 bytes,
"j")` in a 10-byte cache, `currentBytes` is 10 while the entries
reachable through the index sum to 8 bytes (and the nodes linked in the
list to 14): evicting the stale `"k"` node deleted the live `"k"`
binding and double-counted its size, so the accounting invariant fails
on this operation sequence. -/
theorem c2_currentBytes_desync :
    staleEvictRun.map (fun s => (s.cacheSize, mapSumBytes s, listSumBytes s)) =
      some (10, 8, 14) := by decide

/-- Claim C3: `find(url)` on an absent key increments only `misses` and
returns a miss; on a present key it increments `hits`, stamps the
entry's `lruTimeTrack` with the current time, splices the entry to the
head of the list, and returns that entry. -/
theorem c3_find_contract (t : Nat) (url : String) (s : CacheState) :
    (mapGet s.cacheMap url = none →
      find t url s = (none, { s with misses := s.misses + 1 })) ∧
    (∀ id, mapGet s.cacheMap url = some id →
      find t url s =
        (some { (getNode s.nodes id).getD dummyElem with lruTimeTrack := t },
         { s with
            hits := s.hits + 1,
            nodes := setNode s.nodes id
              { (getNode s.nodes id).getD dummyElem with lruTimeTrack := t },
            list := id :: s.list.erase id })) := by
  constructor
  · intro hm
    simp [find, hm]
  · intro id hm
    simp [find, hm, moveToFront]

/-- Witness for C3: in the one-entry state, `find("z")` misses and only
bumps `misses`, while `find("k")` hits, restamps the entry and splices
it to the head. -/
theorem c3_find_contract_witness :
    find 5 "z" oneEntryState = (none, { oneEntryState with misses := oneEntryState.misses + 1 }) ∧
    find 5 "k" oneEntryState =
      (some { (getNode oneEntryState.nodes 0).getD dummyElem with lruTimeTrack := 5 },
       { oneEntryState with
          hits := oneEntryState.hits + 1,
          nodes := setNode oneEntryState.nodes 0
            { (getNode oneEntryState.nodes 0).getD dummyElem with lruTimeTrack := 5 },
          list := 0 :: oneEntryState.list.erase 0 }) :=
  ⟨(c3_find_contract 5 "z" oneEntryState).1 (by decide),
   (c3_find_contract 5 "k" oneEntryState).2 0 (by decide)⟩

/-- Claim C4: an `add` whose entry size exceeds `maxEntryBytes` returns
false and leaves the state untouched in every field, and a subsequent
`find` for that key on a cache that never held it returns a miss. -/
theorem c4_oversize_add_rejected (cfg : Config) (t t' : Nat) (d : List Nat)
    (url : String) (s : CacheState)
    (h : d.length + byteLength url > cfg.maxElementSize) :
    add cfg t d url s = some (false, s) ∧
    (mapGet s.cacheMap url = none → (find t' url s).1 = none) := by
  constructor
  · simp [add, h]
  · intro hm
    simp [find, hm]

/-- Witness for C4: with `maxEntryBytes = 1024`, adding a 1025-byte
payload under `"x"` to the empty cache returns false and changes
nothing, and `find("x")` still misses. -/
theorem c4_oversize_add_rejected_witness :
    add ⟨2000, 1024⟩ 0 (List.replicate 1025 0) "x" emptyCache = some (false, emptyCache) ∧
    (find 1 "x" emptyCache).1 = none :=
  ⟨(c4_oversize_add_rejected ⟨2000, 1024⟩ 0 1 (List.replicate 1025 0) "x" emptyCache
      (by decide)).1,
   (c4_oversize_add_rejected ⟨2000, 1024⟩ 0 1 (List.replicate 1025 0) "x" emptyCache
      (by decide)).2 (by decide)⟩

/-- Counterexample to claim C5: running the specified scenario
(`maxBytes = maxEntryBytes = 300`, three 100-byte payloads under the
1-byte keys `"a"`, `"b"`, `"c"`, then `find("a")`, then a 140-byte
payload under `"d"`) leaves no entry for `"a"` in the index, a list
reading `d, c` rather than `d, a, c`, and 242 bytes rather than 343:
each entry accounts 101 bytes with its key, so the third insert already
evicts `"a"` before the `find` could promote it, and the expected
`140 + 100 + 100` plus key bytes would exceed `maxBytes` anyway. -/
theorem c5_cascade_counterexample :
    cascadeRun.map (fun s => (mapGet s.cacheMap "a", listUrls s, s.cacheSize)) =
      some (none, ["d", "c"], 242) := by decide

/-- Claim C5 as amended: in that scenario the code evicts `"a"` at the
third insert (entry sizes are 101 bytes including the key), the
`find("a")` is a miss, and the final `add` evicts `"b"`, leaving index
`{c, d}`, list order `d, c`, and `currentBytes = 242`. -/
theorem c5_cascade_actual :
    cascadeRun.map
      (fun s => (listUrls s, s.cacheMap.map (·.1), s.cacheSize, s.hits, s.misses)) =
      some (["d", "c"], ["c", "d"], 242, 0, 1) := by decide

/-- The duplicate-removal step leaves the linked list untouched. -/
theorem dedupState_list (s : CacheState) (url : String) :
    (dedupState s url).list = s.list := by
  unfold dedupState
  cases mapGet s.cacheMap url <;> rfl

/-- The duplicate-removal step leaves the allocation table untouched. -/
theorem dedupState_nodes (s : CacheState) (url : String) :
    (dedupState s url).nodes = s.nodes := by
  unfold dedupState
  cases mapGet s.cacheMap url <;> rfl

/-- The duplicate-removal step never increases the byte counter. -/
theorem dedupState_cacheSize_le (s : CacheState) (url : String) :
    (dedupState s url).cacheSize ≤ s.cacheSize := by
  unfold dedupState
  cases hm : mapGet s.cacheMap url with
  | none => exact le_refl _
  | some id =>
    have h0 : (0 : Int) ≤ (((getNode s.nodes id).getD dummyElem).length : Int) +
        ((byteLength ((getNode s.nodes id).getD dummyElem).url : Nat) : Int) := by
      positivity
    simp only
    omega

/-- Claim C6: when the incoming entry fits within `maxEntryBytes`, the
configuration satisfies `maxEntryBytes ≤ maxBytes`, and the §3
accounting and membership invariants hold beforehand, the eviction loop
inside `add` performs finitely many `removeLRU` calls and terminates:
`add` returns a result rather than reaching the diverging state in
which the list is empty while the loop condition still holds. -/
theorem c6_add_eviction_terminates (cfg : Config) (t : Nat) (data : List Nat)
    (url : String) (s : CacheState)
    (hinv : goodState s)
    (hsize : data.length + byteLength url ≤ cfg.maxElementSize)
    (hcfg : cfg.maxElementSize ≤ cfg.maxSize) :
    (add cfg t data url s).isSome := by
  have hes : ((data.length + byteLength url : Nat) : Int) ≤ (cfg.maxSize : Int) := by
    exact_mod_cast le_trans hsize hcfg
  have hsum : listSumBytes (dedupState s url) = listSumBytes s := by
    simp [listSumBytes, nodeSize, dedupState_list, dedupState_nodes]
  have hle : (dedupState s url).cacheSize ≤ listSumBytes (dedupState s url) := by
    rw [hsum, ← hinv.1]
    exact dedupState_cacheSize_le s url
  have hev : (evictLoop cfg (data.length + byteLength url) (dedupState s url)).isSome := by
    unfold evictLoop
    exact evictLoopAux_isSome cfg _ hes _ _ le_rfl hle
  obtain ⟨s2, h2⟩ := Option.isSome_iff_exists.mp hev
  simp only [add]
  rw [if_neg (by omega : ¬ data.length + byteLength url > cfg.maxElementSize), h2]
  rfl

/-- Witness for C6: the invariants hold for the empty cache and the
3-byte `add` under `"u"` into the 100-byte configuration returns. -/
theorem c6_add_eviction_terminates_witness :
    goodState emptyCache ∧ (add cfg100 3 [1, 2] "u" emptyCache).isSome :=
  ⟨⟨rfl, by intro p hp; simp [emptyCache] at hp⟩,
   c6_add_eviction_terminates cfg100 3 [1, 2] "u" emptyCache
     ⟨rfl, by intro p hp; simp [emptyCache] at hp⟩ (by decide) (by decide)⟩

/-- Counterexample to claim C7: the handler adds a missing scheme but
never strips trailing slashes, so while `example.test/y` and
`http://example.test/y` format to the same lookup key,
`http://example.test/y/` formats (and stores) to a different key. -/
theorem c7_no_trailing_slash_strip :
    formatTargetUrl "example.test/y" = formatTargetUrl "http://example.test/y" ∧
    formatTargetUrl "http://example.test/y/" ≠ formatTargetUrl "example.test/y" ∧
    urlHref (formatTargetUrl "http://example.test/y/") ≠
      urlHref (formatTargetUrl "example.test/y") := by decide

/-- Claim C7 as amended: `targetUrl=example.test/y` and
`targetUrl=http://example.test/y` normalize (scheme added) to the same
key `http://example.test/y`, used both for the lookup and — through the
parsed href, which is the identity on these urls — for the insertion;
`targetUrl=http://example.test/y/` keeps its trailing slash and yields
the distinct key `http://example.test/y/`. -/
theorem c7_normalization_actual :
    formatTargetUrl "example.test/y" = "http://example.test/y" ∧
    formatTargetUrl "http://example.test/y" = "http://example.test/y" ∧
    formatTargetUrl "http://example.test/y/" = "http://example.test/y/" ∧
    urlHref "http://example.test/y" = "http://example.test/y" ∧
    urlHref "http://example.test/y/" = "http://example.test/y/" := by decide

/-- Counterexample to claim C8: after one hit and one miss the logged
hit rate is the percentage 50, not `hits / (hits + misses) = 1 / 2` as
the claim states. -/
theorem c8_hitrate_counterexample :
    oneHitOneMissRun.map
      (fun s => ((logStats s).hitRate, (s.hits : ℚ) / ((s.hits : ℚ) + (s.misses : ℚ)))) =
      some (50, 1 / 2) ∧ (50 : ℚ) ≠ 1 / 2 := by
  have hrun : oneHitOneMissRun =
      some ⟨[0], [(0, ⟨[1, 2], 2, "k", 1⟩)], [("k", 0)], 3, 1, 1, 1⟩ := by decide
  rw [hrun]
  constructor
  · simp [logStats]
    norm_num
  · norm_num

/-- Claim C8 as amended: the statistics observer is the private
`logStats`, which reads `currentBytes`, `itemCount`, `hits` and
`misses` without mutating anything and computes the hit rate as the
percentage `hits / (hits + misses) * 100` (0 when no lookup happened);
`clear` followed by the observer yields all zeros. -/
theorem c8_stats_amended (s : CacheState) :
    logStats (clear s) = ⟨0, 0, 0, 0, 0⟩ ∧
    (logStats s).hitRate =
      (if s.hits + s.misses > 0
       then (s.hits : ℚ) / ((s.hits : ℚ) + (s.misses : ℚ)) * 100
       else 0) ∧
    (logStats s).currentBytes = s.cacheSize ∧
    (logStats s).itemCount = s.cacheMap.length ∧
    (logStats s).hits = s.hits ∧
    (logStats s).misses = s.misses :=
  ⟨rfl, rfl, rfl, rfl, rfl, rfl⟩

/-- Claim C9: an oversize `add` under a key that is already cached
returns false before reaching the duplicate-removal step, so the state
is untouched and a subsequent `find` still hits and returns the old
bytes. -/
theorem c9_oversize_add_preserves_entry (cfg : Config) (t t' : Nat) (d : List Nat)
    (k : String) (s : CacheState) (id : Nat)
    (hm : mapGet s.cacheMap k = some id)
    (h : d.length + byteLength k > cfg.maxElementSize) :
    add cfg t d k s = some (false, s) ∧
    (find t' k s).1 =
      some { (getNode s.nodes id).getD dummyElem with lruTimeTrack := t' } ∧
    ((find t' k s).1.map Elem.data) =
      some ((getNode s.nodes id).getD dummyElem).data := by
  refine ⟨by simp [add, h], ?_, ?_⟩ <;> simp [find, hm]

/-- Witness for C9: in the one-entry state a 200-byte payload under the
cached key `"k"` is rejected and `find("k")` still returns `[1, 2]`. -/
theorem c9_oversize_add_preserves_entry_witness :
    add cfg100 9 (List.replicate 200 5) "k" oneEntryState = some (false, oneEntryState) ∧
    (find 7 "k" oneEntryState).1 =
      some { (getNode oneEntryState.nodes 0).getD dummyElem with lruTimeTrack := 7 } ∧
    ((find 7 "k" oneEntryState).1.map Elem.data) =
      some ((getNode oneEntryState.nodes 0).getD dummyElem).data :=
  c9_oversize_add_preserves_entry cfg100 9 7 (List.replicate 200 5) "k" oneEntryState 0
    (by decide) (by decide)

/-- Claim C10: starting from the empty cache, a first `/proxy` request
for `u` misses and stores the body under the parsed href of the
formatted url, while lookups use the formatted url itself; a second
identical request therefore hits exactly when the formatted url equals
its own parsed href. -/
theorem c10_second_request_hit_iff (cfg : Config) (t1 t2 : Nat) (u : String)
    (body : List Nat)
    (h1 : body.length + byteLength (urlHref (formatTargetUrl u)) ≤ cfg.maxElementSize)
    (h2 : cfg.maxElementSize ≤ cfg.maxSize) :
    (proxyOnce cfg t1 u body emptyCache).1 = false ∧
    ((proxyOnce cfg t1 u body emptyCache).2.map
        (fun s1 => (proxyOnce cfg t2 u body s1).1)) =
      some (formatTargetUrl u == urlHref (formatTargetUrl u)) := by
  have hf1 : find t1 (formatTargetUrl u) emptyCache =
      (none, { emptyCache with misses := 1 }) := rfl
  have hbig : ¬ body.length + byteLength (urlHref (formatTargetUrl u)) > cfg.maxElementSize := by
    omega
  have hcast : ((body.length + byteLength (urlHref (formatTargetUrl u)) : Nat) : Int) ≤
      (cfg.maxSize : Int) := by
    exact_mod_cast le_trans h1 h2
  have hcond : ¬ ((cfg.maxSize : Int) <
      (body.length : Int) + ((byteLength (urlHref (formatTargetUrl u)) : Nat) : Int)) := by
    push_cast at hcast
    omega
  have hadd : add cfg t1 body (urlHref (formatTargetUrl u)) { emptyCache with misses := 1 } =
      some (true,
        { list := [0],
          nodes := [(0, ⟨body, body.length, urlHref (formatTargetUrl u), t1⟩)],
          cacheMap := [(urlHref (formatTargetUrl u), 0)],
          cacheSize := ((body.length + byteLength (urlHref (formatTargetUrl u)) : Nat) : Int),
          hits := 0, misses := 1, nextId := 1 }) := by
    simp [add, hbig, dedupState, mapGet, evictLoop, evictLoopAux, mapSet, emptyCache, hcond]
  have hsecond : ∀ (s1 : CacheState) (k : String), s1.cacheMap = [(k, 0)] →
      (proxyOnce cfg t2 u body s1).1 = (formatTargetUrl u == k) := by
    intro s1 k hmap
    by_cases heq : formatTargetUrl u = k
    · subst heq
      have hm0 : mapGet s1.cacheMap (formatTargetUrl u) = some 0 := by
        rw [hmap]
        simp [mapGet]
      have hf := (c3_find_contract t2 (formatTargetUrl u) s1).2 0 hm0
      simp [proxyOnce, hf]
    · have hm0 : mapGet s1.cacheMap (formatTargetUrl u) = none := by
        rw [hmap]
        have hk : k ≠ formatTargetUrl u := fun hh => heq hh.symm
        simp [mapGet, hk]
      have hf := (c3_find_contract t2 (formatTargetUrl u) s1).1 hm0
      simp only [proxyOnce, hf]
      cases hx : add cfg t2 body (urlHref (formatTargetUrl u))
          { s1 with misses := s1.misses + 1 } with
      | none => simp [hx, beq_iff_eq, heq]
      | some p =>
        obtain ⟨b, s2⟩ := p
        simp [hx, beq_iff_eq, heq]
  constructor
  · simp [proxyOnce, hf1, hadd]
  · simp only [proxyOnce, hf1, hadd, Option.map_some]
    exact congrArg some (hsecond _ (urlHref (formatTargetUrl u)) rfl)

/-- Witness for C10: for `targetUrl = example.test` the formatted url
`http://example.test` differs from its href `http://example.test/`, so
the boolean the theorem yields for the second request is false. -/
theorem c10_second_request_hit_iff_witness :
    (proxyOnce cfg100 0 "example.test" [79, 75] emptyCache).1 = false ∧
    ((proxyOnce cfg100 0 "example.test" [79, 75] emptyCache).2.map
        (fun s1 => (proxyOnce cfg100 1 "example.test" [79, 75] s1).1)) =
      some (formatTargetUrl "example.test" == urlHref (formatTargetUrl "example.test")) :=
  c10_second_request_hit_iff cfg100 0 1 "example.test" [79, 75] (by decide) (by decide)
